import Mathlib

/-!
Verification development for the cloud-provider selection engine.

The embedding mirrors the Python modules `app/core/scoring_engine.py`,
`app/core/service_model_rules.py`, `app/core/config.py` and
`app/core/explanation_engine.py`.  Python floats are modelled as exact
rationals (every constant in the program is a short decimal); Python's
`round(x, n)` (round-half-to-even) is modelled by `roundHalfEven`;
fallible code returns `Except`; dictionaries holding the recognised keys
are modelled as structures of `Option`-valued fields (`none` = key absent).
-/

namespace CloudSpec

/-- Round-half-to-even to an integer, the semantics of Python's `round`.
`n % 2 = 0` is Python's evenness test on the floor. -/
def roundHalfEven (q : ℚ) : ℤ :=
  let n := ⌊q⌋
  let r := q - (n : ℚ)
  if r < 1/2 then n
  else if 1/2 < r then n + 1
  else if n % 2 = 0 then n else n + 1

/-- Python `round(x, 4)` on exact rationals. -/
def round4 (x : ℚ) : ℚ := (roundHalfEven (x * 10000) : ℚ) / 10000

/-- Python `round(x, 1)` on exact rationals. -/
def round1 (x : ℚ) : ℚ := (roundHalfEven (x * 10) : ℚ) / 10

/-- The five recognised preference features (`WEIGHT_CONFIG` keys). -/
inductive Feature where
  | budget | scalability | security | ease_of_use | free_tier
deriving DecidableEq, Fintype, Repr

/-- The fixed iteration list over the five features. -/
def featureList : List Feature :=
  [.budget, .scalability, .security, .ease_of_use, .free_tier]

/-- The three providers of `PROVIDER_CATALOG`. -/
inductive Provider where
  | aws | azure | gcp
deriving DecidableEq, Fintype, Repr

/-- Provider id string as used for dictionary keys in the source. -/
def Provider.id : Provider → String
  | .aws => "aws"
  | .azure => "azure"
  | .gcp => "gcp"

/-- Feature key strings as they appear in the Python dictionaries. -/
def featureName : Feature → String
  | .budget => "budget"
  | .scalability => "scalability"
  | .security => "security"
  | .ease_of_use => "ease_of_use"
  | .free_tier => "free_tier"

/-- Static `WEIGHT_CONFIG` from `config.py` (0.25/0.20/0.25/0.15/0.15). -/
def WEIGHT_CONFIG : Feature → ℚ
  | .budget => 1/4
  | .scalability => 1/5
  | .security => 1/4
  | .ease_of_use => 3/20
  | .free_tier => 3/20

/-- `PROVIDER_CATALOG[p]["feature_scores"]` from `config.py`. -/
def feature_scores : Provider → Feature → ℚ
  | .aws, .scalability => 10
  | .aws, .security => 9
  | .aws, .ease_of_use => 7
  | .aws, .budget => 6
  | .aws, .free_tier => 5
  | .azure, .security => 10
  | .azure, .scalability => 8
  | .azure, .ease_of_use => 6
  | .azure, .budget => 5
  | .azure, .free_tier => 4
  | .gcp, .free_tier => 10
  | .gcp, .budget => 9
  | .gcp, .ease_of_use => 9
  | .gcp, .scalability => 7
  | .gcp, .security => 6

/-- `PROVIDER_CATALOG[p]["strengths"]` from `config.py`. -/
def provider_strengths : Provider → List String
  | .aws =>
    ["Broadest service catalog and global footprint",
     "Strong enterprise and compliance offerings",
     "Leading scalability and security"]
  | .azure =>
    ["Deep integration with Microsoft stack and hybrid cloud",
     "Strong compliance and government offerings",
     "Top-tier security and enterprise focus"]
  | .gcp =>
    ["Strong data and ML/AI capabilities",
     "Generous free tier and sustained-use discounts",
     "Cost-effective and developer-friendly"]

/-- `MOCK_PRICING` from `config.py`: provider id → (base_compute, base_storage).
Keyed by string because `calculate_estimated_cost` accepts arbitrary ids. -/
def MOCK_PRICING (provider : String) : Option (ℚ × ℚ) :=
  if provider = "aws" then some (120, 40)
  else if provider = "azure" then some (110, 45)
  else if provider = "gcp" then some (100, 35)
  else none

/-- Builds the per-provider modifier map of one region. -/
def regionMods (a z g : ℚ) : Provider → ℚ
  | .aws => a
  | .azure => z
  | .gcp => g

/-- `REGION_PROVIDER_MODIFIERS` from `config.py`.  Every region's inner
dictionary contains all three providers, so the inner map is total. -/
def REGION_PROVIDER_MODIFIERS (region : String) : Option (Provider → ℚ) :=
  if region = "india" then some (regionMods (1/5) (3/10) (1/10))
  else if region = "us" then some (regionMods (3/10) (1/5) (1/5))
  else if region = "europe" then some (regionMods (1/5) (3/10) (1/5))
  else none

/-- The string-valued keys of the request dictionary that the scoring
engine reads (`none` = key absent from the dictionary). -/
structure UserDict where
  budget : Option String
  scalability : Option String
  security : Option String
  ease_of_use : Option String
  free_tier : Option String
  team_expertise : Option String
deriving DecidableEq

/-- `user_input.get(feature)` for the five recognised features. -/
def UserDict.get (d : UserDict) : Feature → Option String
  | .budget => d.budget
  | .scalability => d.scalability
  | .security => d.security
  | .ease_of_use => d.ease_of_use
  | .free_tier => d.free_tier

/-- A `user_input` argument: either not a dict at all, or a dict. -/
inductive PyInput where
  | notDict
  | dict (d : UserDict)

/-- `QUALITATIVE_SCALE` from `scoring_engine.py`; `none` for a value
outside the allowed set (Python's `raw not in allowed`). -/
def QUALITATIVE_SCALE (s : String) : Option ℚ :=
  if s = "low" then some 3
  else if s = "medium" then some 6
  else if s = "high" then some 9
  else none

/-- The exceptions `_validate_and_normalize_user_input` can raise. -/
inductive ScoreErr where
  | typeError
  | valueError (f : Feature)
deriving DecidableEq

/-- First feature (in `featureList` order) whose supplied value is not one
of low/medium/high; mirrors the validation loop's first `raise`. -/
def featureFailure (d : UserDict) : Option Feature :=
  featureList.find? (fun f => (QUALITATIVE_SCALE ((d.get f).getD "medium")).isNone)

/-- Normalised intensity `QUALITATIVE_SCALE[raw] / 9.0` with the `"medium"`
default for an absent key.  (`getD 0` is only consulted after validation
has ruled out invalid values.) -/
def normalized_intensity (d : UserDict) (f : Feature) : ℚ :=
  ((QUALITATIVE_SCALE ((d.get f).getD "medium")).getD 0) / 9

/-- `_validate_and_normalize_user_input`: `TypeError` for a non-dict,
`ValueError` for an invalid value, otherwise the intensity map. -/
def validate_and_normalize_user_input : PyInput → Except ScoreErr (Feature → ℚ)
  | .notDict => .error .typeError
  | .dict d =>
    match featureFailure d with
    | some f => .error (.valueError f)
    | none => .ok (normalized_intensity d)

/-- All five feature values are valid (present value in the allowed set,
or absent and defaulting to `"medium"`). -/
def Valid (d : UserDict) : Prop :=
  ∀ f : Feature, (QUALITATIVE_SCALE ((d.get f).getD "medium")).isSome

instance (d : UserDict) : Decidable (Valid d) :=
  inferInstanceAs (Decidable (∀ _f, _))

/-- A Python value supplied in a custom-weights mapping. -/
inductive PyObj where
  | str (s : String)
  | num (q : ℚ)
  | other
deriving DecidableEq

/-- Python's `isinstance(value, (int, float))` together with the
non-negativity test `not (coerced < 0)` of `_select_weights`. -/
def weight_ok : Option PyObj → Bool
  | some (.num q) => decide (0 ≤ q)
  | _ => false

/-- The coerced numeric value of a custom-weight entry (0 when the entry
would already have caused the default fallback). -/
def weight_val : Option PyObj → ℚ
  | some (.num q) => q
  | _ => 0

/-- `_select_weights`: the static `WEIGHT_CONFIG` unless every feature has
a non-negative numeric entry with positive total, in which case each entry
is divided by the total. -/
def select_weights (custom_weights : Option (Feature → Option PyObj)) :
    Feature → ℚ :=
  match custom_weights with
  | none => WEIGHT_CONFIG
  | some m =>
    if featureList.all (fun f => weight_ok (m f)) then
      let total := (featureList.map (fun f => weight_val (m f))).sum
      if total ≤ 0 then WEIGHT_CONFIG
      else fun f => weight_val (m f) / total
    else WEIGHT_CONFIG

/-- Python `x.lower()` restricted to the character-wise core semantics. -/
def toLowerStr (s : String) : String := ⟨s.data.map Char.toLower⟩

/-- Python `x.upper()`. -/
def toUpperStr (s : String) : String := ⟨s.data.map Char.toUpper⟩

/-- Python `x.strip()`: drop whitespace from both ends. -/
def trimStr (s : String) : String :=
  ⟨((s.data.dropWhile (fun c => c.isWhitespace)).reverse.dropWhile
      (fun c => c.isWhitespace)).reverse⟩

/-- Python `value or default` for the optional string fields read by the
cost estimator: an absent key or an empty (falsy) string yields the
default. -/
def orDefault (v : Option String) (dflt : String) : String :=
  match v with
  | none => dflt
  | some s => if s = "" then dflt else s

/-- The effective (defaulted, lowercased) level the cost estimator reads
for one of its three keys. -/
def effective_level (v : Option String) : String :=
  toLowerStr (orDefault v "medium")

/-- The additive cost multiplier of `calculate_estimated_cost`. -/
def cost_mult (d : UserDict) : ℚ :=
  1 + (if effective_level d.scalability = "high" then 3/10
       else if effective_level d.scalability = "medium" then 3/20 else 0)
    + (if effective_level d.security = "high" then 1/5
       else if effective_level d.security = "medium" then 1/10 else 0)
    + (if effective_level d.team_expertise = "low" then 1/10 else 0)

/-- `calculate_estimated_cost`: 0 for an unknown provider id, otherwise
`round((base_compute + base_storage) * multiplier)` to the nearest
integer. -/
def calculate_estimated_cost (d : UserDict) (provider : String) : ℚ :=
  match MOCK_PRICING provider with
  | none => 0
  | some (bc, bs) => (roundHalfEven ((bc + bs) * cost_mult d) : ℚ)

/-- Sum of a quantity over the five features, the `for feature, weight in
weights.items()` accumulation. -/
def sumFeatures (g : Feature → ℚ) : ℚ :=
  g .budget + g .scalability + g .security + g .ease_of_use + g .free_tier

/-- The weighted per-provider score before regional modifier and cost
penalty: `round(Σ weight · intensity · feature_score, 4)`. -/
def base_scores (d : UserDict) (cw : Option (Feature → Option PyObj)) :
    Provider → ℚ := fun p =>
  round4 (sumFeatures (fun f =>
    select_weights cw f * normalized_intensity d f * feature_scores p f))

/-- The regional-modifier stage: applied only when a region is supplied
(truthy) and recognised; every provider is in each region's map. -/
def apply_region (region : Option String) (scores : Provider → ℚ) :
    Provider → ℚ :=
  match region with
  | none => scores
  | some r =>
    if r = "" then scores
    else
      match REGION_PROVIDER_MODIFIERS r with
      | none => scores
      | some mods => fun p => round4 (scores p + mods p)

/-- Scores after weighting and the optional regional modifier, before the
high-budget cost penalty. -/
def scores_pre_penalty (d : UserDict) (cw : Option (Feature → Option PyObj))
    (region : Option String) : Provider → ℚ :=
  apply_region region (base_scores d cw)

/-- The high-budget cost-penalty stage: subtract
`0.2 * cost / max_cost` (guarded by `max_cost > 0`) and round again. -/
def apply_cost_penalty (d : UserDict) (scores : Provider → ℚ) :
    Provider → ℚ :=
  let costs : Provider → ℚ := fun p => calculate_estimated_cost d p.id
  let max_cost := max (costs .aws) (max (costs .azure) (costs .gcp))
  if 0 < max_cost then
    fun p => round4 (scores p - 1/5 * (costs p / max_cost))
  else scores

/-- `calculate_provider_scores` from `scoring_engine.py`. -/
def calculate_provider_scores (input : PyInput)
    (custom_weights : Option (Feature → Option PyObj))
    (region : Option String) : Except ScoreErr (Provider → ℚ) :=
  match input with
  | .notDict => .error .typeError
  | .dict d =>
    match featureFailure d with
    | some f => .error (.valueError f)
    | none =>
      let pre := scores_pre_penalty d custom_weights region
      .ok (if d.budget = some "high" then apply_cost_penalty d pre else pre)

/-- Reads one provider's entry out of a `calculate_provider_scores`
result (0 on the error branch); lets concrete evaluations stay
binder-free. -/
def scoreOf (e : Except ScoreErr (Provider → ℚ)) (p : Provider) : ℚ :=
  match e with
  | .ok s => s p
  | .error _ => 0

/-- Stable insertion used by `stableSortDesc`: `x` goes in front of the
first element that compares strictly below it. -/
def insort (lt : α → α → Bool) (x : α) : List α → List α
  | [] => [x]
  | y :: ys => if lt y x then x :: y :: ys else y :: insort lt x ys

/-- Stable descending sort (Python's stable `sorted(..., reverse=True)` /
`list.sort(key=...)` as used by the sources; only stability and the
descending order matter to the callers). -/
def stableSortDesc (lt : α → α → Bool) (l : List α) : List α :=
  l.foldl (fun acc x => insort lt x acc) []

/-- Result shape of `compute_confidence`. -/
structure ConfidenceResult where
  confidence_percent : ℚ
  confidence_level : String
deriving DecidableEq

/-- `compute_confidence` from `scoring_engine.py`, taking the list of
per-provider score values (the dictionary's values). -/
def compute_confidence (provider_scores : List ℚ) : ConfidenceResult :=
  if provider_scores.length < 2 then ⟨0, "Low"⟩
  else
    let ordered := stableSortDesc (fun a b => decide (a < b)) provider_scores
    let top_score := ordered.headD 0
    let second_score := (ordered.drop 1).headD 0
    let difference := top_score - second_score
    let confidence_level :=
      if (3:ℚ)/2 ≤ difference then "High"
      else if (4:ℚ)/5 ≤ difference then "Moderate"
      else "Low"
    ⟨round1 (max 0 (min (difference / 3 * 100) 100)), confidence_level⟩

/-- The `user_input` fields read by `determine_service_model`; values may
be arbitrary Python objects, hence `PyObj`. -/
structure SMInput where
  industry : Option PyObj
  team_expertise : Option PyObj

/-- Result of `determine_service_model`. -/
structure ServiceModelResult where
  service_model : String
  reason : String
deriving DecidableEq

/-- Keys of `SERVICE_MODEL_RULES["industry"]` in `config.py` (only key
membership is consulted by `determine_service_model`). -/
def industry_rule_keys : List String :=
  ["healthcare", "finance", "startup", "enterprise", "default"]

/-- Keys of `SERVICE_MODEL_RULES["team_expertise"]` in `config.py`. -/
def team_expertise_rule_keys : List String :=
  ["high", "medium", "low", "default"]

/-- `DEFAULT_SERVICE_MODEL` from `service_model_rules.py`. -/
def DEFAULT_SERVICE_MODEL : String := "IaaS"

/-- `INDUSTRY_TO_SERVICE_MODEL.get(key, DEFAULT_SERVICE_MODEL)`. -/
def INDUSTRY_TO_SERVICE_MODEL (k : String) : String :=
  if k = "healthcare" then "PaaS"
  else if k = "finance" then "IaaS"
  else if k = "startup" then "PaaS"
  else if k = "enterprise" then "IaaS"
  else if k = "default" then "IaaS"
  else DEFAULT_SERVICE_MODEL

/-- `TEAM_EXPERTISE_TO_SERVICE_MODEL.get(key, DEFAULT_SERVICE_MODEL)`. -/
def TEAM_EXPERTISE_TO_SERVICE_MODEL (k : String) : String :=
  if k = "high" then "IaaS"
  else if k = "medium" then "PaaS"
  else if k = "low" then "SaaS"
  else if k = "default" then "PaaS"
  else DEFAULT_SERVICE_MODEL

/-- The fallback result when no rule matched. -/
def default_service_model_result : ServiceModelResult :=
  ⟨DEFAULT_SERVICE_MODEL,
   "No industry or team_expertise rule matched. Using default service model: "
     ++ DEFAULT_SERVICE_MODEL ++ "."⟩

/-- The team-expertise tier of `determine_service_model`, reached when no
industry rule matched. -/
def expertise_branch (u : SMInput) : ServiceModelResult :=
  match u.team_expertise with
  | some (.str s) =>
    let expertise_key := toLowerStr (trimStr s)
    if team_expertise_rule_keys.contains expertise_key then
      let sm := TEAM_EXPERTISE_TO_SERVICE_MODEL expertise_key
      ⟨sm, "Matched team_expertise rule: " ++ expertise_key
            ++ ". Recommended service model: " ++ sm ++ "."⟩
    else default_service_model_result
  | _ => default_service_model_result

/-- `determine_service_model` from `service_model_rules.py` (the dict
branch; a non-dict argument raises `TypeError` before reaching this). -/
def determine_service_model (u : SMInput) : ServiceModelResult :=
  match u.industry with
  | some (.str s) =>
    let industry_key := toLowerStr (trimStr s)
    if industry_rule_keys.contains industry_key then
      let sm := INDUSTRY_TO_SERVICE_MODEL industry_key
      ⟨sm, "Matched industry rule: " ++ industry_key
            ++ ". Recommended service model: " ++ sm ++ "."⟩
    else expertise_branch u
  | _ => expertise_branch u

/-- `_INFLUENCE_SCALE.get(raw, 6)` from `explanation_engine.py` (string
values; a non-string raw value also maps to 6 in the source). -/
def INFLUENCE_SCALE (s : String) : ℚ :=
  if s = "low" then 3
  else if s = "medium" then 6
  else if s = "high" then 9
  else 6

/-- The `(feature_name, weight * intensity)` influence pairs built by
`_rank_criteria_by_influence` before sorting. -/
def feature_influences (d : UserDict) : List (String × ℚ) :=
  featureList.map (fun f =>
    (featureName f, WEIGHT_CONFIG f * INFLUENCE_SCALE ((d.get f).getD "medium")))

/-- `_rank_criteria_by_influence(user_input, top_n=3)`: sort by influence
descending (stably) and keep the first three. -/
def rank_criteria_by_influence (d : UserDict) : List (String × ℚ) :=
  (stableSortDesc (fun a b => decide (a.2 < b.2)) (feature_influences d)).take 3

/-- Python `feature.replace("_", " ")` (single-character pattern). -/
def replace_underscores (s : String) : String :=
  ⟨s.data.map (fun c => if c = '_' then ' ' else c)⟩

/-- `PROVIDER_CATALOG.get(selected_provider)`. -/
def catalog_lookup (pid : String) : Option Provider :=
  if pid = "aws" then some .aws
  else if pid = "azure" then some .azure
  else if pid = "gcp" then some .gcp
  else none

/-- `provider_scores.get(selected_provider)` on the score dictionary,
modelled as an association list. -/
def lookup_score (l : List (String × ℚ)) (k : String) : Option ℚ :=
  (l.find? (fun kv => kv.1 == k)).map (fun kv => kv.2)

/-- `_provider_explanation` from `explanation_engine.py`.  Numeric
formatting of the score inside the sentence is not modelled bit-exactly
(Python float repr); no claim depends on it. -/
def provider_explanation (selected_provider : String)
    (provider_scores : List (String × ℚ)) (user_input : UserDict) :
    List String :=
  match (if selected_provider = "" then none
         else catalog_lookup selected_provider) with
  | none =>
    ["Provider selection could not be explained (unknown or missing provider)."]
  | some p =>
    let top_criteria := rank_criteria_by_influence user_input
    let criteria_names :=
      (top_criteria.filter (fun c => decide (0 < c.2))).map
        (fun c => replace_underscores c.1)
    let head_line :=
      if criteria_names = [] then
        toUpperStr selected_provider ++ " was selected as the recommended provider."
      else
        let criteria_text := String.intercalate ", " criteria_names
        match lookup_score provider_scores selected_provider with
        | some v =>
          toUpperStr selected_provider ++ " was selected (score: " ++ toString v
            ++ ") based on your priorities: " ++ criteria_text ++ "."
        | none =>
          toUpperStr selected_provider ++ " was selected based on your priorities: "
            ++ criteria_text ++ "."
    if provider_strengths p = [] then [head_line]
    else
      [head_line,
       "Key strengths: "
         ++ String.intercalate "; " ((provider_strengths p).take 3) ++ "."]

/-- The `provider_scores` argument of `generate_explanation`: possibly not
a dictionary at all. -/
inductive PyScores where
  | notDict
  | dict (entries : List (String × ℚ))

/-- The `service_model_result` argument of `generate_explanation`: either
not a dictionary, or a dictionary whose `"reason"` entry may be absent. -/
inductive SMResArg where
  | notDict
  | dict (reason : Option String)

/-- The final line appended by `generate_explanation`: the truthy reason
string if present, else the default line. -/
def service_model_line (r : SMResArg) : String :=
  match r with
  | .dict (some s) =>
    if s = "" then "Service model: default recommendation applied." else s
  | _ => "Service model: default recommendation applied."

/-- `user_input if isinstance(user_input, dict) else {}`. -/
def userDictOf : PyInput → UserDict
  | .dict d => d
  | .notDict => ⟨none, none, none, none, none, none⟩

/-- `generate_explanation` from `explanation_engine.py`.  A missing
(`None`) selected provider reaches `_provider_explanation` as `""` via
`selected_provider or ""`. -/
def generate_explanation (user_input : PyInput) (provider_scores : PyScores)
    (selected_provider : String) (service_model_result : SMResArg) :
    List String :=
  (match provider_scores with
   | .notDict => ["Provider recommendation explanation is unavailable."]
   | .dict l => provider_explanation selected_provider l (userDictOf user_input))
    ++ [service_model_line service_model_result]

/-! Claim-side definitions, written from the specification's words, to be
compared against the embedded source functions. -/

/-- Claim C1's regional stage, as the spec words it: "if the region is
supplied and recognized, the region's per-provider modifier is added and
the result rounded to 4 places again". -/
def claim_region_stage (region : Option String) (base : ℚ) (p : Provider) : ℚ :=
  match region with
  | some r =>
    match REGION_PROVIDER_MODIFIERS r with
    | some mods => round4 (base + mods p)
    | none => base
  | none => base

/-- Claim C1's full score formula: weighted sum of
(selected weight × normalized intensity × provider feature score) rounded
to 4 places, then the regional stage, then — when budget is exactly
"high" — an unconditional reduction by 0.2·(cost / max cost), rounded. -/
def claim_score (d : UserDict) (cw : Option (Feature → Option PyObj))
    (region : Option String) : Provider → ℚ := fun p =>
  let base := round4 (sumFeatures (fun f =>
    select_weights cw f * normalized_intensity d f * feature_scores p f))
  let with_region := claim_region_stage region base p
  if d.budget = some "high" then
    let costs : Provider → ℚ := fun q => calculate_estimated_cost d q.id
    let max_cost := max (costs .aws) (max (costs .azure) (costs .gcp))
    round4 (with_region - 1/5 * (costs p / max_cost))
  else with_region

/-- Claim C2's cost formula exactly as the claim words it: in particular
"low or absent scalability adds 0.0", and only the listed level matches
contribute. -/
def claim_cost (d : UserDict) (provider : String) : ℚ :=
  match MOCK_PRICING provider with
  | none => 0
  | some (bc, bs) =>
    let mult := (1 : ℚ)
      + (if d.scalability = some "high" then 3/10
         else if d.scalability = some "medium" then 3/20 else 0)
      + (if d.security = some "high" then 1/5
         else if d.security = some "medium" then 1/10 else 0)
      + (if d.team_expertise = some "low" then 1/10 else 0)
    (roundHalfEven ((bc + bs) * mult) : ℚ)

/-! Concrete inputs used by witnesses and counterexamples. -/

/-- The empty request dictionary. -/
def emptyUserDict : UserDict := ⟨none, none, none, none, none, none⟩

/-- budget="high", every other feature "medium", no team_expertise. -/
def budgetHighAllMedium : UserDict :=
  ⟨some "high", some "medium", some "medium", some "medium", some "medium", none⟩

/-- budget="medium", every other feature "medium", no team_expertise. -/
def budgetMediumAllMedium : UserDict :=
  ⟨some "medium", some "medium", some "medium", some "medium", some "medium", none⟩

/-- Every feature preference "low". -/
def allLowDict : UserDict :=
  ⟨some "low", some "low", some "low", some "low", some "low", none⟩

/-- Every feature preference "high". -/
def allHighDict : UserDict :=
  ⟨some "high", some "high", some "high", some "high", some "high", none⟩

/-- A custom-weights mapping giving every feature numeric weight 1. -/
def unitWeights : Feature → Option PyObj := fun _ => some (.num 1)

/-! Helper lemmas. -/

theorem roundHalfEven_bounds (q : ℚ) :
    q - 1/2 ≤ (roundHalfEven q : ℚ) ∧ (roundHalfEven q : ℚ) ≤ q + 1/2 := by
  have h1 : ((⌊q⌋ : ℤ) : ℚ) ≤ q := Int.floor_le q
  have h2 : q < (⌊q⌋ : ℚ) + 1 := Int.lt_floor_add_one q
  simp only [roundHalfEven]
  split_ifs <;> constructor <;> push_cast <;> linarith

theorem roundHalfEven_intCast (k : ℤ) : roundHalfEven (k : ℚ) = k := by
  simp only [roundHalfEven, Int.floor_intCast]
  norm_num

theorem roundHalfEven_mono {x y : ℚ} (h : x ≤ y) :
    roundHalfEven x ≤ roundHalfEven y := by
  rcases lt_or_ge ⌊x⌋ ⌊y⌋ with hf | hf
  · have hx : roundHalfEven x ≤ ⌊x⌋ + 1 := by
      simp only [roundHalfEven]; split_ifs <;> omega
    have hy : ⌊y⌋ ≤ roundHalfEven y := by
      simp only [roundHalfEven]; split_ifs <;> omega
    omega
  · have hff : ⌊x⌋ = ⌊y⌋ := le_antisymm (Int.floor_le_floor h) hf
    simp only [roundHalfEven, hff]
    split_ifs <;> first | omega | linarith

theorem round4_mono {x y : ℚ} (h : x ≤ y) : round4 x ≤ round4 y := by
  have hm := roundHalfEven_mono
    (mul_le_mul_of_nonneg_right h (by norm_num : (0:ℚ) ≤ 10000))
  have hc : ((roundHalfEven (x * 10000) : ℤ) : ℚ)
      ≤ ((roundHalfEven (y * 10000) : ℤ) : ℚ) := by exact_mod_cast hm
  simp only [round4]
  linarith

theorem round4_intLattice (k : ℤ) : round4 ((k : ℚ) / 10000) = (k : ℚ) / 10000 := by
  have hk : ((k : ℚ) / 10000) * 10000 = (k : ℚ) := by field_simp
  simp only [round4, hk, roundHalfEven_intCast]

theorem round4_shape (x : ℚ) : ∃ k : ℤ, round4 x = (k : ℚ) / 10000 :=
  ⟨roundHalfEven (x * 10000), rfl⟩

theorem scores_pre_penalty_shape (d : UserDict)
    (cw : Option (Feature → Option PyObj)) (region : Option String)
    (p : Provider) :
    ∃ k : ℤ, scores_pre_penalty d cw region p = (k : ℚ) / 10000 := by
  simp only [scores_pre_penalty, apply_region, base_scores]
  rcases region with _ | r
  · exact round4_shape _
  · dsimp only
    split_ifs
    · exact round4_shape _
    · cases REGION_PROVIDER_MODIFIERS r
      · exact round4_shape _
      · exact round4_shape _

theorem WEIGHT_CONFIG_nonneg (f : Feature) : 0 ≤ WEIGHT_CONFIG f := by
  cases f <;> norm_num [WEIGHT_CONFIG]

theorem feature_scores_nonneg (p : Provider) (f : Feature) :
    0 ≤ feature_scores p f := by
  cases p <;> cases f <;> norm_num [feature_scores]

theorem mem_featureList (f : Feature) : f ∈ featureList := by
  cases f <;> simp [featureList]

theorem weight_val_nonneg_of_ok {v : Option PyObj} (h : weight_ok v = true) :
    0 ≤ weight_val v := by
  rcases v with _ | o
  · simp [weight_ok] at h
  · rcases o with s | q | _
    · simp [weight_ok] at h
    · simp only [weight_ok, decide_eq_true_eq] at h
      simpa [weight_val] using h
    · simp [weight_ok] at h

theorem select_weights_nonneg (cw : Option (Feature → Option PyObj))
    (f : Feature) : 0 ≤ select_weights cw f := by
  rcases cw with _ | m
  · exact WEIGHT_CONFIG_nonneg f
  · simp only [select_weights]
    split_ifs with hall htot
    · exact WEIGHT_CONFIG_nonneg f
    · have hv : 0 ≤ weight_val (m f) := by
        have hm := List.all_eq_true.mp hall f (mem_featureList f)
        exact weight_val_nonneg_of_ok hm
      have ht : (0:ℚ) < (featureList.map (fun f => weight_val (m f))).sum :=
        lt_of_not_ge htot
      exact div_nonneg hv (le_of_lt ht)
    · exact WEIGHT_CONFIG_nonneg f

theorem sumFeatures_le {g h : Feature → ℚ} (H : ∀ f, g f ≤ h f) :
    sumFeatures g ≤ sumFeatures h := by
  have h1 := H .budget
  have h2 := H .scalability
  have h3 := H .security
  have h4 := H .ease_of_use
  have h5 := H .free_tier
  simp only [sumFeatures]
  linarith

theorem one_le_cost_mult (d : UserDict) : 1 ≤ cost_mult d := by
  simp only [cost_mult]
  split_ifs <;> norm_num

theorem cost_aws_eq (d : UserDict) :
    calculate_estimated_cost d "aws"
      = (roundHalfEven (160 * cost_mult d) : ℚ) := by
  simp +decide only [calculate_estimated_cost, MOCK_PRICING]
  norm_num

theorem cost_azure_eq (d : UserDict) :
    calculate_estimated_cost d "azure"
      = (roundHalfEven (155 * cost_mult d) : ℚ) := by
  simp +decide only [calculate_estimated_cost, MOCK_PRICING]
  norm_num

theorem cost_gcp_eq (d : UserDict) :
    calculate_estimated_cost d "gcp"
      = (roundHalfEven (135 * cost_mult d) : ℚ) := by
  simp +decide only [calculate_estimated_cost, MOCK_PRICING]
  norm_num

theorem cost_aws_strict_max (d : UserDict) :
    calculate_estimated_cost d "azure" < calculate_estimated_cost d "aws" ∧
    calculate_estimated_cost d "gcp" < calculate_estimated_cost d "aws" := by
  have hm := one_le_cost_mult d
  have b1 := roundHalfEven_bounds (160 * cost_mult d)
  have b2 := roundHalfEven_bounds (155 * cost_mult d)
  have b3 := roundHalfEven_bounds (135 * cost_mult d)
  rw [cost_aws_eq, cost_azure_eq, cost_gcp_eq]
  constructor <;> linarith

theorem cost_aws_pos (d : UserDict) : 0 < calculate_estimated_cost d "aws" := by
  have hm := one_le_cost_mult d
  have b1 := roundHalfEven_bounds (160 * cost_mult d)
  rw [cost_aws_eq]
  linarith

theorem featureFailure_eq_none_of_valid {d : UserDict} (h : Valid d) :
    featureFailure d = none := by
  simp only [featureFailure]
  rw [List.find?_eq_none]
  intro f _
  have hf := h f
  cases hq : QUALITATIVE_SCALE ((d.get f).getD "medium")
  · rw [hq] at hf; simp at hf
  · simp [hq]

theorem scale_cases {s : String} {v : ℚ} (h : QUALITATIVE_SCALE s = some v) :
    v = 3 ∨ v = 6 ∨ v = 9 := by
  simp only [QUALITATIVE_SCALE] at h
  split_ifs at h <;> simp_all

/-! Claim theorems. -/

/-- C8: input normalization raises a type error for a non-mapping input,
an invalid-value error when some recognized feature's present value is not
one of low/medium/high, and otherwise returns for each feature the
intensity of the supplied level (default "medium") on the 3/6/9 scale
divided by 9, a value in (0, 1]. -/
theorem C8_input_normalization :
    (validate_and_normalize_user_input .notDict = .error .typeError) ∧
    (∀ d : UserDict,
      (∃ f s, d.get f = some s ∧ QUALITATIVE_SCALE s = none) →
      ∃ g, validate_and_normalize_user_input (.dict d) = .error (.valueError g)) ∧
    (∀ d : UserDict, Valid d →
      validate_and_normalize_user_input (.dict d) = .ok (normalized_intensity d) ∧
      ∀ f, 0 < normalized_intensity d f ∧ normalized_intensity d f ≤ 1) := by
  refine ⟨rfl, ?_, ?_⟩
  · rintro d ⟨f, s, hfs, hscale⟩
    have hsome : (featureList.find? (fun f =>
        (QUALITATIVE_SCALE ((d.get f).getD "medium")).isNone)).isSome := by
      rw [List.find?_isSome]
      exact ⟨f, mem_featureList f, by simp [hfs, hscale]⟩
    rcases Option.isSome_iff_exists.mp hsome with ⟨g, hg⟩
    refine ⟨g, ?_⟩
    simp only [validate_and_normalize_user_input, featureFailure, hg]
  · intro d hv
    have hnone := featureFailure_eq_none_of_valid hv
    constructor
    · simp only [validate_and_normalize_user_input, hnone]
    · intro f
      have hf := hv f
      rcases Option.isSome_iff_exists.mp hf with ⟨v, hveq⟩
      have hval : normalized_intensity d f = v / 9 := by
        simp [normalized_intensity, hveq]
      rcases scale_cases hveq with h3 | h6 | h9 <;>
        rw [hval] <;> subst_vars <;> norm_num

/-- C4: weight selection falls back to the static default weights (never
raising) when the override is absent, has a missing/non-numeric/negative
entry, or sums to zero or less; any valid override is divided through by
its total and the selected weights sum to 1 (hence to 1.0 within 1e-9). -/
theorem C4_weight_selection :
    (select_weights none = WEIGHT_CONFIG) ∧
    (∀ m : Feature → Option PyObj, (∃ f, weight_ok (m f) = false) →
      select_weights (some m) = WEIGHT_CONFIG) ∧
    (∀ m : Feature → Option PyObj, (∀ f, weight_ok (m f) = true) →
      (featureList.map (fun f => weight_val (m f))).sum ≤ 0 →
      select_weights (some m) = WEIGHT_CONFIG) ∧
    (∀ m : Feature → Option PyObj, (∀ f, weight_ok (m f) = true) →
      0 < (featureList.map (fun f => weight_val (m f))).sum →
      (∀ f, select_weights (some m) f
          = weight_val (m f) / (featureList.map (fun f => weight_val (m f))).sum) ∧
      sumFeatures (select_weights (some m)) = 1 ∧
      |sumFeatures (select_weights (some m)) - 1| ≤ 1 / 1000000000) := by
  refine ⟨rfl, ?_, ?_, ?_⟩
  · rintro m ⟨f, hf⟩
    have hall : featureList.all (fun f => weight_ok (m f)) = false := by
      by_contra hc
      have := List.all_eq_true.mp (eq_true_of_ne_false hc) f (mem_featureList f)
      rw [hf] at this
      exact Bool.false_ne_true this
    simp only [select_weights, hall, Bool.false_eq_true, if_false]
  · intro m hok htot
    have hall : featureList.all (fun f => weight_ok (m f)) = true :=
      List.all_eq_true.mpr (fun f _ => hok f)
    simp only [select_weights, hall, if_true, htot, if_pos]
  · intro m hok htot
    have hall : featureList.all (fun f => weight_ok (m f)) = true :=
      List.all_eq_true.mpr (fun f _ => hok f)
    have hsel : select_weights (some m)
        = fun f => weight_val (m f) / (featureList.map (fun f => weight_val (m f))).sum := by
      simp only [select_weights, hall, if_true, if_neg (not_le.mpr htot)]
    have hsum : sumFeatures (select_weights (some m)) = 1 := by
      rw [hsel]
      have he : (featureList.map (fun f => weight_val (m f))).sum
          = weight_val (m .budget) + weight_val (m .scalability)
            + weight_val (m .security) + weight_val (m .ease_of_use)
            + weight_val (m .free_tier) := by
        simp [featureList]
        ring
      simp only [sumFeatures]
      rw [div_add_div_same, div_add_div_same, div_add_div_same, div_add_div_same,
        he, div_self (by rw [he] at htot; linarith)]
    exact ⟨fun f => by rw [hsel], hsum, by rw [hsum]; norm_num⟩

theorem append_ne_empty_left {a b : String} (h : a ≠ "") : a ++ b ≠ "" := by
  intro hc
  apply h
  have hdata : a.data ++ b.data = ([] : List Char) := by
    rw [show a.data ++ b.data = (a ++ b).data from rfl, hc]
  exact String.ext (by rw [(List.append_eq_nil.mp hdata).1])

theorem lit3_ne {a : String} (ha : a ≠ "") (b c : String) : a ++ b ++ c ≠ "" :=
  append_ne_empty_left (append_ne_empty_left ha)

theorem lit5_ne {a : String} (ha : a ≠ "") (b c d e : String) :
    a ++ b ++ c ++ d ++ e ≠ "" :=
  append_ne_empty_left (append_ne_empty_left (append_ne_empty_left
    (append_ne_empty_left ha)))

theorem INDUSTRY_TO_SERVICE_MODEL_valid (k : String) :
    INDUSTRY_TO_SERVICE_MODEL k = "IaaS" ∨ INDUSTRY_TO_SERVICE_MODEL k = "PaaS"
      ∨ INDUSTRY_TO_SERVICE_MODEL k = "SaaS" := by
  simp only [INDUSTRY_TO_SERVICE_MODEL, DEFAULT_SERVICE_MODEL]
  split_ifs <;> simp

theorem TEAM_EXPERTISE_TO_SERVICE_MODEL_valid (k : String) :
    TEAM_EXPERTISE_TO_SERVICE_MODEL k = "IaaS"
      ∨ TEAM_EXPERTISE_TO_SERVICE_MODEL k = "PaaS"
      ∨ TEAM_EXPERTISE_TO_SERVICE_MODEL k = "SaaS" := by
  simp only [TEAM_EXPERTISE_TO_SERVICE_MODEL, DEFAULT_SERVICE_MODEL]
  split_ifs <;> simp

theorem expertise_branch_invariant (u : SMInput) :
    (expertise_branch u).service_model = "IaaS"
      ∨ (expertise_branch u).service_model = "PaaS"
      ∨ (expertise_branch u).service_model = "SaaS" := by
  simp only [expertise_branch]
  rcases u.team_expertise with _ | o
  · simp [default_service_model_result, DEFAULT_SERVICE_MODEL]
  · rcases o with s | q | _
    · dsimp only
      split_ifs
      · exact TEAM_EXPERTISE_TO_SERVICE_MODEL_valid _
      · simp [default_service_model_result, DEFAULT_SERVICE_MODEL]
    · simp [default_service_model_result, DEFAULT_SERVICE_MODEL]
    · simp [default_service_model_result, DEFAULT_SERVICE_MODEL]

theorem expertise_branch_reason_ne (u : SMInput) :
    (expertise_branch u).reason ≠ "" := by
  simp only [expertise_branch]
  rcases u.team_expertise with _ | o
  · simp only [default_service_model_result]
    exact lit3_ne (by decide) _ _
  · rcases o with s | q | _
    · dsimp only
      split_ifs
      · exact lit5_ne (by decide) _ _ _ _
      · exact lit3_ne (by decide) _ _
    · exact lit3_ne (by decide) _ _
    · exact lit3_ne (by decide) _ _

/-- C10: for every mapping input (industry / team_expertise present,
absent, non-string or unrecognized), `determine_service_model` is total
(never raises), its service model is one of IaaS/PaaS/SaaS, and its
reason is a non-empty string. -/
theorem C10_service_model_invariant (u : SMInput) :
    ((determine_service_model u).service_model = "IaaS"
      ∨ (determine_service_model u).service_model = "PaaS"
      ∨ (determine_service_model u).service_model = "SaaS") ∧
    (determine_service_model u).reason ≠ "" := by
  simp only [determine_service_model]
  rcases hu : u.industry with _ | o
  · exact ⟨expertise_branch_invariant u, expertise_branch_reason_ne u⟩
  · rcases o with s | q | _
    · dsimp only
      split_ifs
      · exact ⟨INDUSTRY_TO_SERVICE_MODEL_valid _, lit5_ne (by decide) _ _ _ _⟩
      · exact ⟨expertise_branch_invariant u, expertise_branch_reason_ne u⟩
    · exact ⟨expertise_branch_invariant u, expertise_branch_reason_ne u⟩
    · exact ⟨expertise_branch_invariant u, expertise_branch_reason_ne u⟩

set_option maxRecDepth 8000 in
/-- C5: when industry is present, a string, and trims+lowercases to a
known industry rule key, `determine_service_model` returns that rule's
service model with a reason citing the matched key, independently of
team_expertise; in particular healthcare + low team_expertise gives
"PaaS", not the team-expertise "SaaS" mapping. -/
theorem C5_industry_precedence :
    (∀ (s : String) (te : Option PyObj),
      industry_rule_keys.contains (toLowerStr (trimStr s)) = true →
      determine_service_model ⟨some (.str s), te⟩ =
        ⟨INDUSTRY_TO_SERVICE_MODEL (toLowerStr (trimStr s)),
         "Matched industry rule: " ++ toLowerStr (trimStr s)
           ++ ". Recommended service model: "
           ++ INDUSTRY_TO_SERVICE_MODEL (toLowerStr (trimStr s)) ++ "."⟩) ∧
    determine_service_model ⟨some (.str "healthcare"), some (.str "low")⟩ =
      ⟨"PaaS", "Matched industry rule: healthcare. Recommended service model: PaaS."⟩ := by
  constructor
  · intro s te h
    simp only [determine_service_model, h, if_true]
  · decide

/-- C6: fewer than 2 providers gives 0.0% / "Low"; otherwise, with
difference = top − second after sorting descending, level is High when
difference ≥ 1.5, Moderate when ≥ 0.8, else Low, and the percentage is
min(difference/3·100, 100), floored at 0 and rounded to 1 decimal. -/
theorem C6_confidence :
    (∀ l : List ℚ, l.length < 2 → compute_confidence l = ⟨0, "Low"⟩) ∧
    (∀ l : List ℚ, 2 ≤ l.length →
      compute_confidence l =
        (let ordered := stableSortDesc (fun a b => decide (a < b)) l
         let difference := ordered.headD 0 - (ordered.drop 1).headD 0
         ⟨round1 (max 0 (min (difference / 3 * 100) 100)),
          if (3:ℚ)/2 ≤ difference then "High"
          else if (4:ℚ)/5 ≤ difference then "Moderate" else "Low"⟩)) := by
  constructor
  · intro l h
    simp only [compute_confidence, if_pos h]
  · intro l h
    simp only [compute_confidence, if_neg (by omega : ¬ l.length < 2)]

/-- C7: raising every qualitative feature preference from "low" to "high"
(all else equal) does not decrease any provider's score prior to the cost
penalty (weighted sum plus any regional modifier). -/
theorem C7_low_to_high_monotone (d1 d2 : UserDict)
    (cw : Option (Feature → Option PyObj)) (region : Option String)
    (p : Provider)
    (h1 : ∀ f, d1.get f = some "low") (h2 : ∀ f, d2.get f = some "high") :
    scores_pre_penalty d1 cw region p ≤ scores_pre_penalty d2 cw region p := by
  have hbase : base_scores d1 cw p ≤ base_scores d2 cw p := by
    simp only [base_scores]
    apply round4_mono
    apply sumFeatures_le
    intro f
    have e1 : normalized_intensity d1 f = 1/3 := by
      simp [normalized_intensity, h1 f, QUALITATIVE_SCALE]
      norm_num
    have e2 : normalized_intensity d2 f = 1 := by
      simp [normalized_intensity, h2 f, QUALITATIVE_SCALE]
    rw [e1, e2]
    have hw := select_weights_nonneg cw f
    have hs := feature_scores_nonneg p f
    nlinarith [mul_nonneg hw hs]
  simp only [scores_pre_penalty, apply_region]
  rcases region with _ | r
  · exact hbase
  · dsimp only
    split_ifs
    · exact hbase
    · cases REGION_PROVIDER_MODIFIERS r
      · exact hbase
      · exact round4_mono (by linarith)

theorem apply_region_eq_claim (region : Option String) (b : Provider → ℚ)
    (p : Provider) :
    apply_region region b p = claim_region_stage region (b p) p := by
  rcases region with _ | r
  · rfl
  · simp only [apply_region, claim_region_stage]
    split_ifs with he
    · subst he
      have hrm : REGION_PROVIDER_MODIFIERS "" = none := by
        simp [REGION_PROVIDER_MODIFIERS]
      rw [hrm]
    · cases REGION_PROVIDER_MODIFIERS r <;> rfl

theorem scores_pre_penalty_eq_claim (d : UserDict)
    (cw : Option (Feature → Option PyObj)) (region : Option String)
    (p : Provider) :
    scores_pre_penalty d cw region p
      = claim_region_stage region (round4 (sumFeatures (fun f =>
          select_weights cw f * normalized_intensity d f * feature_scores p f))) p := by
  simp only [scores_pre_penalty]
  rw [apply_region_eq_claim]
  simp only [base_scores]

/-- C1: for every valid preference mapping, `calculate_provider_scores`
returns exactly the spec's formula: the rounded weighted sum, then the
rounded regional modifier when the region is supplied and recognized,
then — when budget is exactly "high" — the rounded reduction by
0.2·(cost / max cost). -/
theorem C1_provider_scores (d : UserDict)
    (cw : Option (Feature → Option PyObj)) (region : Option String)
    (h : Valid d) :
    calculate_provider_scores (.dict d) cw region
      = .ok (claim_score d cw region) := by
  simp only [calculate_provider_scores, featureFailure_eq_none_of_valid h]
  congr 1
  funext p
  by_cases hb : d.budget = some "high"
  · rw [if_pos hb]
    have hc := cost_aws_strict_max d
    have hmax : max (calculate_estimated_cost d Provider.aws.id)
        (max (calculate_estimated_cost d Provider.azure.id)
          (calculate_estimated_cost d Provider.gcp.id))
        = calculate_estimated_cost d "aws" := by
      simp only [Provider.id]
      exact max_eq_left (max_le (le_of_lt hc.1) (le_of_lt hc.2))
    have hpos : 0 < max (calculate_estimated_cost d Provider.aws.id)
        (max (calculate_estimated_cost d Provider.azure.id)
          (calculate_estimated_cost d Provider.gcp.id)) := by
      rw [hmax]; exact cost_aws_pos d
    simp only [apply_cost_penalty, claim_score, if_pos hb, if_pos hpos,
      scores_pre_penalty_eq_claim]
  · rw [if_neg hb]
    simp only [claim_score, if_neg hb, scores_pre_penalty_eq_claim]

theorem C1_provider_scores_witness :
    Valid budgetHighAllMedium ∧
    calculate_provider_scores (.dict budgetHighAllMedium) none (some "india")
      = .ok (claim_score budgetHighAllMedium none (some "india")) :=
  ⟨by decide, C1_provider_scores _ _ _ (by decide)⟩

theorem max_cost_eq_aws (d : UserDict) :
    max (calculate_estimated_cost d Provider.aws.id)
      (max (calculate_estimated_cost d Provider.azure.id)
        (calculate_estimated_cost d Provider.gcp.id))
      = calculate_estimated_cost d "aws" := by
  have hc := cost_aws_strict_max d
  simp only [Provider.id]
  exact max_eq_left (max_le (le_of_lt hc.1) (le_of_lt hc.2))

/-- C3 (amended): for every valid request with budget exactly "high",
aws is strictly the highest-cost provider and its final score is exactly
its pre-penalty score minus 0.2, hence strictly lower than its own
pre-penalty score for the same request.  (Compared to the same request
with budget lowered, the score need not drop, since the budget intensity
itself raises the weighted sum; see the counterexample.) -/
theorem C3_high_budget_penalizes_max_cost (d : UserDict)
    (cw : Option (Feature → Option PyObj)) (region : Option String)
    (h : Valid d) (hb : d.budget = some "high") :
    ∃ s, calculate_provider_scores (.dict d) cw region = .ok s ∧
      (calculate_estimated_cost d "azure" < calculate_estimated_cost d "aws" ∧
       calculate_estimated_cost d "gcp" < calculate_estimated_cost d "aws") ∧
      s .aws = scores_pre_penalty d cw region .aws - 1/5 ∧
      s .aws < scores_pre_penalty d cw region .aws := by
  have hpos := cost_aws_pos d
  have hmax2 : max (calculate_estimated_cost d "aws")
      (max (calculate_estimated_cost d "azure") (calculate_estimated_cost d "gcp"))
      = calculate_estimated_cost d "aws" := by
    have hc := cost_aws_strict_max d
    exact max_eq_left (max_le (le_of_lt hc.1) (le_of_lt hc.2))
  have hpos2 : 0 < max (calculate_estimated_cost d "aws")
      (max (calculate_estimated_cost d "azure") (calculate_estimated_cost d "gcp")) := by
    rw [hmax2]; exact hpos
  have hawsval : apply_cost_penalty d (scores_pre_penalty d cw region) .aws
      = scores_pre_penalty d cw region .aws - 1/5 := by
    simp only [apply_cost_penalty, Provider.id]
    rw [if_pos hpos2]
    dsimp only
    rw [hmax2, div_self (ne_of_gt hpos)]
    obtain ⟨k, hk⟩ := scores_pre_penalty_shape d cw region .aws
    rw [hk]
    have h2 : (k : ℚ)/10000 - 1/5 * 1 = ((k - 2000 : ℤ) : ℚ)/10000 := by
      push_cast; ring
    rw [h2, round4_intLattice]
    push_cast; ring
  refine ⟨apply_cost_penalty d (scores_pre_penalty d cw region), ?_,
    cost_aws_strict_max d, hawsval, by rw [hawsval]; linarith⟩
  simp only [calculate_provider_scores, featureFailure_eq_none_of_valid h,
    if_pos hb]

theorem C3_high_budget_penalizes_max_cost_witness :
    Valid budgetHighAllMedium ∧
    budgetHighAllMedium.budget = some "high" ∧
    (∃ s, calculate_provider_scores (.dict budgetHighAllMedium) none none = .ok s ∧
      (calculate_estimated_cost budgetHighAllMedium "azure"
          < calculate_estimated_cost budgetHighAllMedium "aws" ∧
       calculate_estimated_cost budgetHighAllMedium "gcp"
          < calculate_estimated_cost budgetHighAllMedium "aws") ∧
      s .aws = scores_pre_penalty budgetHighAllMedium none none .aws - 1/5 ∧
      s .aws < scores_pre_penalty budgetHighAllMedium none none .aws) :=
  ⟨by decide, rfl, C3_high_budget_penalizes_max_cost _ _ _ (by decide) rfl⟩

theorem C2_estimated_cost_counterexample :
    calculate_estimated_cost emptyUserDict "aws" = 200 ∧
    claim_cost emptyUserDict "aws" = 160 ∧
    calculate_estimated_cost emptyUserDict "aws" ≠ claim_cost emptyUserDict "aws" := by
  have h1 : calculate_estimated_cost emptyUserDict "aws" = 200 := by
    simp +decide only [calculate_estimated_cost, MOCK_PRICING, cost_mult,
      effective_level, orDefault, toLowerStr, emptyUserDict]
    norm_num [roundHalfEven]
  have h2 : claim_cost emptyUserDict "aws" = 160 := by
    simp +decide only [claim_cost, MOCK_PRICING, emptyUserDict]
    norm_num [roundHalfEven]
  exact ⟨h1, h2, by rw [h1, h2]; norm_num⟩

/-- C2 (amended): `calculate_estimated_cost` returns 0 for an unknown
provider id and otherwise round(base × multiplier) to the nearest
integer, where each of scalability / security / team_expertise is first
defaulted to "medium" when absent or empty and lowercased; the multiplier
adds 0.30/0.15 for high/medium scalability (so an absent scalability adds
0.15, not 0.0), 0.20/0.10 for high/medium security, and 0.10 for low
team_expertise. -/
theorem C2_estimated_cost_amended (d : UserDict) (provider : String) :
    (MOCK_PRICING provider = none → calculate_estimated_cost d provider = 0) ∧
    (∀ bc bs : ℚ, MOCK_PRICING provider = some (bc, bs) →
      calculate_estimated_cost d provider =
        (roundHalfEven ((bc + bs) *
          (1 + (if effective_level d.scalability = "high" then 3/10
                else if effective_level d.scalability = "medium" then 3/20 else 0)
            + (if effective_level d.security = "high" then 1/5
                else if effective_level d.security = "medium" then 1/10 else 0)
            + (if effective_level d.team_expertise = "low" then 1/10 else 0))) : ℚ)) := by
  constructor
  · intro hp
    simp only [calculate_estimated_cost, hp]
  · intro bc bs hp
    simp only [calculate_estimated_cost, hp, cost_mult]

theorem C2_estimated_cost_amended_witness :
    MOCK_PRICING "aws" = some (120, 40) ∧
    calculate_estimated_cost emptyUserDict "aws" =
      (roundHalfEven (((120 : ℚ) + 40) *
        (1 + (if effective_level emptyUserDict.scalability = "high" then 3/10
              else if effective_level emptyUserDict.scalability = "medium" then 3/20 else 0)
          + (if effective_level emptyUserDict.security = "high" then 1/5
              else if effective_level emptyUserDict.security = "medium" then 1/10 else 0)
          + (if effective_level emptyUserDict.team_expertise = "low" then 1/10 else 0))) : ℚ) :=
  ⟨by decide, (C2_estimated_cost_amended emptyUserDict "aws").2 120 40 (by decide)⟩

theorem C3_budget_high_counterexample :
    (calculate_estimated_cost budgetHighAllMedium "azure"
        < calculate_estimated_cost budgetHighAllMedium "aws") ∧
    (calculate_estimated_cost budgetHighAllMedium "gcp"
        < calculate_estimated_cost budgetHighAllMedium "aws") ∧
    scoreOf (calculate_provider_scores (.dict budgetMediumAllMedium) none none) .aws
      < scoreOf (calculate_provider_scores (.dict budgetHighAllMedium) none none) .aws := by
  have hcm := cost_aws_strict_max budgetHighAllMedium
  have hmed : featureFailure budgetMediumAllMedium = none := by decide
  have hhigh : featureFailure budgetHighAllMedium = none := by decide
  have epre_med : scores_pre_penalty budgetMediumAllMedium none none .aws
      = 50333/10000 := by
    simp +decide only [scores_pre_penalty, apply_region, base_scores, sumFeatures,
      select_weights, WEIGHT_CONFIG, normalized_intensity, QUALITATIVE_SCALE,
      UserDict.get, budgetMediumAllMedium, feature_scores, Option.getD]
    norm_num [round4, roundHalfEven]
  have epre_high : scores_pre_penalty budgetHighAllMedium none none .aws
      = 55333/10000 := by
    simp +decide only [scores_pre_penalty, apply_region, base_scores, sumFeatures,
      select_weights, WEIGHT_CONFIG, normalized_intensity, QUALITATIVE_SCALE,
      UserDict.get, budgetHighAllMedium, feature_scores, Option.getD]
    norm_num [round4, roundHalfEven]
  have c1 : calculate_estimated_cost budgetHighAllMedium "aws" = 200 := by
    simp +decide only [calculate_estimated_cost, MOCK_PRICING, cost_mult,
      effective_level, orDefault, toLowerStr, budgetHighAllMedium]
    norm_num [roundHalfEven]
  have emed : scoreOf (calculate_provider_scores (.dict budgetMediumAllMedium)
      none none) .aws = 50333/10000 := by
    simp only [calculate_provider_scores, hmed]
    rw [if_neg (show ¬ budgetMediumAllMedium.budget = some "high" by decide)]
    simp only [scoreOf]
    exact epre_med
  have ehigh : scoreOf (calculate_provider_scores (.dict budgetHighAllMedium)
      none none) .aws = 53333/10000 := by
    have hpos2 : 0 < max (calculate_estimated_cost budgetHighAllMedium "aws")
        (max (calculate_estimated_cost budgetHighAllMedium "azure")
          (calculate_estimated_cost budgetHighAllMedium "gcp")) := by
      rw [max_eq_left (max_le (le_of_lt hcm.1) (le_of_lt hcm.2)), c1]
      norm_num
    simp only [calculate_provider_scores, hhigh]
    rw [if_pos (show budgetHighAllMedium.budget = some "high" from rfl)]
    simp only [scoreOf]
    simp only [apply_cost_penalty, Provider.id]
    rw [if_pos hpos2]
    dsimp only
    rw [max_eq_left (max_le (le_of_lt hcm.1) (le_of_lt hcm.2)), c1,
      div_self (by norm_num : (200:ℚ) ≠ 0), epre_high]
    norm_num [round4, roundHalfEven]
  exact ⟨hcm.1, hcm.2, by rw [emed, ehigh]; norm_num⟩

theorem C8_input_normalization_witness :
    Valid allHighDict ∧
    validate_and_normalize_user_input (.dict allHighDict)
      = .ok (normalized_intensity allHighDict) ∧
    (0 < normalized_intensity allHighDict .budget
      ∧ normalized_intensity allHighDict .budget ≤ 1) :=
  ⟨by decide, (C8_input_normalization.2.2 allHighDict (by decide)).1,
    (C8_input_normalization.2.2 allHighDict (by decide)).2 .budget⟩

theorem C4_weight_selection_witness :
    (∀ f, weight_ok (unitWeights f) = true) ∧
    0 < (featureList.map (fun f => weight_val (unitWeights f))).sum ∧
    sumFeatures (select_weights (some unitWeights)) = 1 := by
  have h1 : ∀ f, weight_ok (unitWeights f) = true := by
    intro f
    simp [unitWeights, weight_ok]
  have h2 : 0 < (featureList.map (fun f => weight_val (unitWeights f))).sum := by
    simp [featureList, unitWeights, weight_val]
    norm_num
  exact ⟨h1, h2, (C4_weight_selection.2.2.2 unitWeights h1 h2).2.1⟩

set_option maxRecDepth 8000 in
theorem C5_industry_precedence_witness :
    industry_rule_keys.contains (toLowerStr (trimStr "healthcare")) = true ∧
    determine_service_model ⟨some (.str "healthcare"), some (.str "low")⟩ =
      ⟨INDUSTRY_TO_SERVICE_MODEL (toLowerStr (trimStr "healthcare")),
       "Matched industry rule: " ++ toLowerStr (trimStr "healthcare")
         ++ ". Recommended service model: "
         ++ INDUSTRY_TO_SERVICE_MODEL (toLowerStr (trimStr "healthcare")) ++ "."⟩ :=
  ⟨by decide, C5_industry_precedence.1 "healthcare" (some (.str "low")) (by decide)⟩

theorem C6_confidence_witness :
    compute_confidence [(1:ℚ)] = ⟨0, "Low"⟩ ∧
    compute_confidence [(4:ℚ), 2] = ⟨667/10, "High"⟩ := by
  constructor
  · exact C6_confidence.1 [(1:ℚ)] (by norm_num)
  · rw [C6_confidence.2 [(4:ℚ), 2] (by norm_num)]
    norm_num [stableSortDesc, insort, List.foldl, round1, roundHalfEven]

theorem C7_low_to_high_monotone_witness :
    (∀ f, allLowDict.get f = some "low") ∧
    (∀ f, allHighDict.get f = some "high") ∧
    scores_pre_penalty allLowDict none none .aws
      ≤ scores_pre_penalty allHighDict none none .aws :=
  ⟨by decide, by decide,
    C7_low_to_high_monotone _ _ _ _ _ (by decide) (by decide)⟩

theorem mem_insort {α : Type} {lt : α → α → Bool} {x a : α} {l : List α}
    (h : a ∈ insort lt x l) : a = x ∨ a ∈ l := by
  induction l with
  | nil => simpa [insort] using h
  | cons y ys ih =>
    simp only [insort] at h
    split_ifs at h
    · simpa using h
    · rcases List.mem_cons.mp h with h1 | h2
      · exact Or.inr (by simp [h1])
      · rcases ih h2 with h3 | h4
        · exact Or.inl h3
        · exact Or.inr (List.mem_cons_of_mem _ h4)

theorem mem_foldl_insort {α : Type} {lt : α → α → Bool} {a : α} :
    ∀ (l acc : List α),
      a ∈ l.foldl (fun acc x => insort lt x acc) acc → a ∈ acc ∨ a ∈ l := by
  intro l
  induction l with
  | nil => intro acc h; exact Or.inl h
  | cons x xs ih =>
    intro acc h
    rcases ih (insort lt x acc) h with h1 | h2
    · rcases mem_insort h1 with h3 | h4
      · exact Or.inr (by simp [h3])
      · exact Or.inl h4
    · exact Or.inr (List.mem_cons_of_mem _ h2)

theorem mem_stableSortDesc {α : Type} {lt : α → α → Bool} {a : α} {l : List α}
    (h : a ∈ stableSortDesc lt l) : a ∈ l := by
  rcases mem_foldl_insort l [] h with h1 | h2
  · simp at h1
  · exact h2

theorem length_insort {α : Type} (lt : α → α → Bool) (x : α) (l : List α) :
    (insort lt x l).length = l.length + 1 := by
  induction l with
  | nil => rfl
  | cons y ys ih =>
    simp only [insort]
    split_ifs <;> simp [ih]

theorem length_foldl_insort {α : Type} (lt : α → α → Bool) :
    ∀ (l acc : List α),
      (l.foldl (fun acc x => insort lt x acc) acc).length
        = acc.length + l.length := by
  intro l
  induction l with
  | nil => intro acc; simp
  | cons x xs ih =>
    intro acc
    simp only [List.foldl, List.length_cons]
    rw [ih, length_insort]
    omega

theorem length_stableSortDesc {α : Type} (lt : α → α → Bool) (l : List α) :
    (stableSortDesc lt l).length = l.length := by
  simpa [stableSortDesc] using length_foldl_insort lt l []

theorem influence_pos (d : UserDict) {c : String × ℚ}
    (h : c ∈ feature_influences d) : 0 < c.2 := by
  simp only [feature_influences, List.mem_map] at h
  obtain ⟨f, _, rfl⟩ := h
  have hw : 0 < WEIGHT_CONFIG f := by cases f <;> norm_num [WEIGHT_CONFIG]
  have hs : 0 < INFLUENCE_SCALE ((d.get f).getD "medium") := by
    simp only [INFLUENCE_SCALE]
    split_ifs <;> norm_num
  exact mul_pos hw hs

theorem rank_criteria_filter_eq (d : UserDict) :
    (rank_criteria_by_influence d).filter (fun c => decide (0 < c.2))
      = rank_criteria_by_influence d := by
  apply List.filter_eq_self.mpr
  intro c hc
  exact decide_eq_true
    (influence_pos d (mem_stableSortDesc (List.mem_of_mem_take hc)))

theorem rank_criteria_length (d : UserDict) :
    (rank_criteria_by_influence d).length = 3 := by
  simp only [rank_criteria_by_influence, List.length_take, length_stableSortDesc]
  simp [feature_influences, featureList]

theorem rank_names_ne_nil (d : UserDict) :
    (rank_criteria_by_influence d).map (fun c => replace_underscores c.1) ≠ [] := by
  intro hc
  have hl := congrArg List.length hc
  rw [List.length_map, rank_criteria_length] at hl
  simp at hl

/-- C9 (amended): an unknown or missing selected provider short-circuits
the provider portion to the single fallback sentence, and a non-mapping
score input short-circuits to a fallback sentence; an empty (but mapping)
score input does not short-circuit — the normal provider rationale lines
are produced, with the score omitted from the sentence. -/
theorem C9_explanation_fallbacks :
    (∀ (u : PyInput) (sel : String) (sm : SMResArg) (l : List (String × ℚ)),
      (sel = "" ∨ catalog_lookup sel = none) →
      generate_explanation u (.dict l) sel sm =
        ["Provider selection could not be explained (unknown or missing provider).",
         service_model_line sm]) ∧
    (∀ (u : PyInput) (sel : String) (sm : SMResArg),
      generate_explanation u .notDict sel sm =
        ["Provider recommendation explanation is unavailable.",
         service_model_line sm]) ∧
    (∀ (u : PyInput) (p : Provider) (sm : SMResArg),
      generate_explanation u (.dict []) p.id sm =
        [toUpperStr p.id ++ " was selected based on your priorities: "
           ++ String.intercalate ", "
              ((rank_criteria_by_influence (userDictOf u)).map
                (fun c => replace_underscores c.1)) ++ ".",
         "Key strengths: "
           ++ String.intercalate "; " ((provider_strengths p).take 3) ++ ".",
         service_model_line sm]) := by
  refine ⟨?_, ?_, ?_⟩
  · intro u sel sm l h
    have hnone : (if sel = "" then none else catalog_lookup sel)
        = (none : Option Provider) := by
      rcases h with he | hn
      · rw [if_pos he]
      · by_cases hsel : sel = ""
        · rw [if_pos hsel]
        · rw [if_neg hsel, hn]
    simp only [generate_explanation, provider_explanation, hnone]
    rfl
  · intro u sel sm
    rfl
  · intro u p sm
    have hid_ne : ¬ (p.id = "") := by cases p <;> decide
    have hlook : catalog_lookup p.id = some p := by cases p <;> rfl
    have hstr : ¬ (provider_strengths p = []) := by cases p <;> decide
    simp only [generate_explanation, provider_explanation, if_neg hid_ne, hlook,
      rank_criteria_filter_eq]
    rw [if_neg (rank_names_ne_nil (userDictOf u))]
    simp only [lookup_score, List.find?, Option.map]
    rw [if_neg hstr]
    rfl

theorem C9_explanation_fallbacks_witness :
    ("nope" = "" ∨ catalog_lookup "nope" = none) ∧
    generate_explanation (.dict emptyUserDict) (.dict [("aws", (5:ℚ))]) "nope"
        (.dict (some "R")) =
      ["Provider selection could not be explained (unknown or missing provider).",
       service_model_line (.dict (some "R"))] :=
  ⟨Or.inr (by decide),
   C9_explanation_fallbacks.1 (.dict emptyUserDict) "nope" (.dict (some "R"))
     [("aws", (5:ℚ))] (Or.inr (by decide))⟩

set_option maxRecDepth 20000 in
theorem C9_short_circuit_counterexample :
    (generate_explanation (.dict emptyUserDict) (.dict []) "aws"
        (.dict (some "Matched industry rule: startup."))).length = 3 ∧
    (generate_explanation (.dict emptyUserDict) (.dict []) "aws"
        (.dict (some "Matched industry rule: startup."))).head? =
      some "AWS was selected based on your priorities: budget, security, scalability." ∧
    (generate_explanation (.dict emptyUserDict) (.dict []) "aws"
        (.dict (some "Matched industry rule: startup."))).head? ≠
      some "Provider selection could not be explained (unknown or missing provider)." ∧
    (generate_explanation (.dict emptyUserDict) (.dict []) "aws"
        (.dict (some "Matched industry rule: startup."))).head? ≠
      some "Provider recommendation explanation is unavailable." := by
  have hsort : rank_criteria_by_influence emptyUserDict
      = [("budget", 3/2), ("security", 3/2), ("scalability", 6/5)] := by
    simp +decide only [rank_criteria_by_influence, feature_influences, featureList,
      featureName, WEIGHT_CONFIG, INFLUENCE_SCALE, UserDict.get, emptyUserDict,
      List.map]
    norm_num [stableSortDesc, insort, List.foldl, List.take]
  have he : generate_explanation (.dict emptyUserDict) (.dict []) "aws"
        (.dict (some "Matched industry rule: startup."))
      = ["AWS was selected based on your priorities: budget, security, scalability.",
         "Key strengths: Broadest service catalog and global footprint; Strong enterprise and compliance offerings; Leading scalability and security.",
         "Matched industry rule: startup."] := by
    simp only [generate_explanation, provider_explanation, userDictOf]
    rw [rank_criteria_filter_eq, hsort]
    decide
  rw [he]
  refine ⟨rfl, rfl, by decide, by decide⟩
